import Mathlib

/-!
Shallow embedding of the jq-proxy request-processing core.

Sources embedded (Go):
  internal/transform/jq.go        — JQTransformer (collapsing rule, query validation)
  internal/transform/unified.go   — UnifiedTransformer dispatch on transformation mode
  internal/proxy/service.go       — Service.HandleRequest orchestration and error types
  internal/proxy/handler.go       — Handler.handleProxyError
  internal/client/http.go         — buildTargetURL, filterHeaders, IsJSONResponse,
                                    ParseJSONBody, Client.ForwardRequest
  internal/models/types.go        — ProxyRequest.Validate, Endpoint.Validate

The third-party gojq engine, the JSON codec of the standard library and the
network transport are external collaborators; they enter the embedding as
abstract function-valued parameters (`JqEngine`, `unmarshal`, `doNet`).
Strings model Go strings; the embedding is faithful on ASCII input (Go's
`strings.ToLower` and Lean's `String.toLower` agree there).
-/

namespace JqProxy

/-- Dynamically typed JSON value, the Lean image of Go's `interface{}`
holding decoded JSON (object/array/string/number/bool/null).  Go's nil
interface value is `null`. -/
inductive Json where
  | null : Json
  | bool : Bool → Json
  | num : Int → Json
  | str : String → Json
  | arr : List Json → Json
  | obj : List (String × Json) → Json

/-- Header multimap, the Lean image of Go's `http.Header` (a map from
name to value list); modelled as an association list with the map's
entries.  A `nil` Go header is `Option.none` at use sites. -/
abbrev Headers := List (String × List String)

/-- Query parameter multimap, the image of Go's `url.Values`. -/
abbrev Values := List (String × List String)

/-- The gojq engine behind `compile`/`run`, an opaque external collaborator
(spec section 2, component 1).  Programs and compiled codes are opaque
handles.  `run` yields the iterator's items in order: each item is either a
value or an error, exactly as `gojq.Code.Run` yields values that may be
`error`-typed. -/
structure JqEngine where
  parse : String → Except String Nat
  compile : Nat → Except String Nat
  run : Nat → Json → List (Except String Json)

/-- The gathering loop of `JQTransformer.TransformWithQuery` (jq.go lines
41–50): pull items until exhaustion, returning the first error item if any,
else the list of produced values in production order. -/
def collectResults : List (Except String Json) → Except String (List Json)
  | [] => .ok []
  | .error e :: _ => .error ("jq query execution failed: " ++ e)
  | .ok v :: rest =>
    match collectResults rest with
    | .error e => .error e
    | .ok vs => .ok (v :: vs)

/-- The collapsing switch of `TransformWithQuery` (jq.go lines 52–59):
zero results ⇒ Go nil (JSON null), one result ⇒ that value, otherwise the
gathered slice. -/
def collapse : List Json → Json
  | [] => .null
  | [v] => v
  | vs => .arr vs

/-- `JQTransformer.TransformWithQuery` (jq.go lines 19–60): empty query
returns the data unchanged; otherwise parse, compile, run, gather, collapse. -/
def transformWithQuery (E : JqEngine) (data : Json) (query : String) : Except String Json :=
  if query = "" then .ok data
  else
    match E.parse query with
    | .error e => .error ("invalid jq query: " ++ e)
    | .ok q =>
      match E.compile q with
      | .error e => .error ("failed to compile jq query: " ++ e)
      | .ok code =>
        match collectResults (E.run code data) with
        | .error e => .error e
        | .ok results => .ok (collapse results)

/-- `JQTransformer.ValidateQuery` (jq.go lines 62–75): empty query passes;
otherwise the query must parse. -/
def validateQuery (E : JqEngine) (query : String) : Except String Unit :=
  if query = "" then .ok ()
  else
    match E.parse query with
    | .error e => .error ("invalid jq query: " ++ e)
    | .ok _ => .ok ()

/-! ### String helpers

Go string primitives (`strings.ToLower`, `strings.HasPrefix`, …) embedded
through `List Char` so that every definition evaluates by kernel reduction.
Go operates on UTF-8 bytes; on ASCII input (the domain of every header name,
URL and query of this code base) the character-level versions agree. -/

/-- `strings.ToLower`, ASCII case folding. -/
def lowerStr (s : String) : String := (s.toList.map Char.toLower).asString

/-- `strings.ToUpper`, ASCII case folding. -/
def upperStr (s : String) : String := (s.toList.map Char.toUpper).asString

/-- `strings.HasPrefix s pre`. -/
def strStarts (s pre : String) : Bool := pre.toList.isPrefixOf s.toList

/-- `strings.HasSuffix s suf`. -/
def strEnds (s suf : String) : Bool := suf.toList.isSuffixOf s.toList

/-- `s[n:]` on ASCII strings. -/
def dropChars (s : String) (n : Nat) : String := (s.toList.drop n).asString

/-- Substring test on lists, the engine of `strings.Contains`. -/
def containsSubList : List Char → List Char → Bool
  | [], needle => needle.isEmpty
  | hs@(_ :: rest), needle => needle.isPrefixOf hs || containsSubList rest needle

/-- `strings.Contains s sub`. -/
def strContainsSub (s sub : String) : Bool := containsSubList s.toList sub.toList

/-- `strings.Cut s (c as separator)`: the part before the first occurrence
of `c`, and — when `c` occurs — the part after it. -/
def cutList (c : Char) : List Char → List Char × Option (List Char)
  | [] => ([], none)
  | x :: xs =>
    if x = c then ([], some xs)
    else
      let (a, b) := cutList c xs
      (x :: a, b)

/-- Go's byte-wise string order (`sort.Strings` comparison); on ASCII it
coincides with code-point lexicographic order. -/
def leChars : List Char → List Char → Bool
  | [], _ => true
  | _ :: _, [] => false
  | a :: as, b :: bs =>
    if a.toNat < b.toNat then true
    else if b.toNat < a.toNat then false
    else leChars as bs

/-- Byte-wise `≤` on strings as Go's `sort.Strings` uses it. -/
def leStr (a b : String) : Bool := leChars a.toList b.toList

/-! ### URL model — the fragment of `net/url` exercised by
`buildTargetURL` (internal/client/http.go lines 137–161).

`parseURL` follows `url.Parse` step by step: control-character rejection,
scheme extraction (`getScheme`), query splitting with `ForceQuery`, the
opaque branch, authority/host parsing with host-character and port
validation, and the first-segment-colon check.  Percent-escape decoding is
not applied (paths and hosts are stored raw), so the model is faithful for
URLs free of `%`-escapes — every URL this repository's tests and claims
touch. -/

structure URL where
  scheme : String := ""
  opq : String := ""
  user : Option String := none
  host : String := ""
  omitHost : Bool := false
  forceQuery : Bool := false
  path : String := ""
  rawQuery : String := ""
  fragment : String := ""
deriving DecidableEq

/-- `stringContainsCTLByte`. -/
def containsCTL (s : String) : Bool :=
  s.toList.any fun c => c.toNat < 0x20 || c.toNat == 0x7f

/-- Worker for `getScheme`: position-indexed scan of the raw URL. -/
def getSchemeAux (full : List Char) : List Char → Nat → Except String (String × String)
  | [], _ => .ok ("", full.asString)
  | c :: rest, i =>
    if c.isAlpha then getSchemeAux full rest (i + 1)
    else if c.isDigit || c = '+' || c = '-' || c = '.' then
      if i = 0 then .ok ("", full.asString) else getSchemeAux full rest (i + 1)
    else if c = ':' then
      if i = 0 then .error "missing protocol scheme"
      else .ok ((full.take i).asString, (full.drop (i + 1)).asString)
    else .ok ("", full.asString)

/-- `net/url.getScheme`: split `raw` into scheme and remainder. -/
def getScheme (raw : String) : Except String (String × String) :=
  getSchemeAux raw.toList raw.toList 0

/-- Characters `shouldEscape` leaves unescaped in `encodeHost` mode. -/
def hostCharOK (c : Char) : Bool :=
  c.isAlphanum ||
    [('-' : Char), '_', '.', '~', '!', '$', '&', Char.ofNat 39, '(', ')', '*', '+', ',', ';',
      '=', ':', '[', ']', '<', '>', '"'].contains c

/-- Characters `validUserinfo` accepts. -/
def userinfoCharOK (c : Char) : Bool :=
  c.isAlphanum ||
    [('-' : Char), '.', '_', ':', '~', '!', '$', '&', Char.ofNat 39, '(', ')', '*', '+', ',',
      ';', '=', '%', '@'].contains c

/-- `validOptionalPort`: empty, or `':'` followed by digits only. -/
def validOptionalPort : List Char → Bool
  | [] => true
  | ':' :: digits => digits.all Char.isDigit
  | _ => false

/-- Index of the last occurrence of `c`, as `strings.LastIndex`. -/
def lastIndexOfChar (c : Char) (l : List Char) : Option Nat :=
  (l.enum.filter fun p => p.2 = c).map Prod.fst |>.getLast?

/-- `parseHost` (validation part): port syntax after the last `':'`, and
every character admissible in a host. -/
def parseHost (host : String) : Except String String :=
  let cs := host.toList
  let portOK :=
    match lastIndexOfChar ':' cs with
    | some i => validOptionalPort (cs.drop i)
    | none => true
  if !portOK then .error ("invalid port after host in " ++ host)
  else if cs.all hostCharOK then .ok host
  else .error ("invalid character in host name in " ++ host)

/-- `parseAuthority`: optional userinfo before the last `'@'`, then the
validated host. -/
def parseAuthority (authority : String) : Except String (Option String × String) :=
  let cs := authority.toList
  match lastIndexOfChar '@' cs with
  | none =>
    match parseHost authority with
    | .error e => .error e
    | .ok h => .ok (none, h)
  | some i =>
    let userinfo := (cs.take i).asString
    let hostPart := (cs.drop (i + 1)).asString
    if !(userinfo.toList.all userinfoCharOK) then .error "net/url: invalid userinfo"
    else
      match parseHost hostPart with
      | .error e => .error e
      | .ok h => .ok (some userinfo, h)

/-- `net/url.parse(rawURL, viaRequest := false)`, the reference-form parse
used by `url.Parse`. -/
def parseRef (raw : String) : Except String URL :=
  if containsCTL raw then .error "net/url: invalid control character in URL"
  else if raw = "*" then .ok { path := "*" }
  else
    match getScheme raw with
    | .error e => .error e
    | .ok (scheme0, rest0) =>
      let scheme := lowerStr scheme0
      let (rest, rawQuery, forceQuery) :=
        if strEnds rest0 "?" && !(strContainsSub (dropLastChar rest0) "?") then
          (dropLastChar rest0, "", true)
        else
          match cutList '?' rest0.toList with
          | (before, some after) => (before.asString, after.asString, false)
          | (before, none) => (before.asString, "", false)
      if scheme ≠ "" && !(strStarts rest "/") then
        .ok { scheme, opq := rest, rawQuery, forceQuery }
      else
        let colonBad :=
          if scheme = "" && !(strStarts rest "/") then
            ((cutList '/' rest.toList).1).contains ':'
          else false
        if colonBad then .error "first path segment in URL cannot contain colon"
        else if (scheme ≠ "" || !(strStarts rest "///")) && strStarts rest "//" then
          let afterSlashes := dropChars rest 2
          let (authority, rest') :=
            match cutList '/' afterSlashes.toList with
            | (before, some after) => (before.asString, ('/' :: after).asString)
            | (before, none) => (before.asString, "")
          match parseAuthority authority with
          | .error e => .error e
          | .ok (user, host) =>
            .ok { scheme, user, host, path := rest', rawQuery, forceQuery }
        else
          .ok { scheme, omitHost := scheme ≠ "" && strStarts rest "/", path := rest,
                rawQuery, forceQuery }
where
  dropLastChar (s : String) : String := (s.toList.dropLast).asString

/-- `net/url.Parse`: split the fragment off at the first `'#'`, then parse
the rest as a URL reference. -/
def parseURL (raw : String) : Except String URL :=
  match cutList '#' raw.toList with
  | (before, frag) =>
    match parseRef before.asString with
    | .error e => .error e
    | .ok u => .ok { u with fragment := (frag.getD []).asString }

/-- `(*URL).String()`: reassemble the URL from its components. -/
def URL.render (u : URL) : String :=
  let schemePart := if u.scheme ≠ "" then u.scheme ++ ":" else ""
  let core :=
    if u.opq ≠ "" then u.opq
    else
      let auth :=
        if u.scheme ≠ "" || u.host ≠ "" || u.user.isSome then
          if u.omitHost && u.host = "" && u.user.isNone then ""
          else
            (if u.host ≠ "" || u.path ≠ "" || u.user.isSome then "//" else "") ++
              (match u.user with | some ui => ui ++ "@" | none => "") ++ u.host
        else ""
      let slash := if u.path ≠ "" && !(strStarts u.path "/") && u.host ≠ "" then "/" else ""
      let dotSlash :=
        if schemePart = "" && auth = "" && slash = "" &&
            ((cutList '/' u.path.toList).1).contains ':' then "./"
        else ""
      auth ++ slash ++ dotSlash ++ u.path
  let queryPart := if u.forceQuery || u.rawQuery ≠ "" then "?" ++ u.rawQuery else ""
  let fragPart := if u.fragment ≠ "" then "#" ++ u.fragment else ""
  schemePart ++ core ++ queryPart ++ fragPart

/-! ### Query encoding — `url.Values.Encode` -/

/-- Upper-case hexadecimal digit, as `"0123456789ABCDEF"[n]`. -/
def hexDigit (n : Nat) : Char := "0123456789ABCDEF".toList.getD n '0'

/-- One character of `url.QueryEscape`: unreserved characters pass, space
becomes `'+'`, everything else becomes `%XX`. -/
def queryEscapeChar (c : Char) : String :=
  if c.isAlphanum || [('-' : Char), '_', '.', '~'].contains c then String.singleton c
  else if c = ' ' then "+"
  else ('%' :: hexDigit (c.toNat / 16) :: [hexDigit (c.toNat % 16)]).asString

/-- `url.QueryEscape` on ASCII input (one UTF-8 byte per character). -/
def queryEscape (s : String) : String := String.join (s.toList.map queryEscapeChar)

/-- The key ordering relation of `sort.Strings` over the entries of a
`url.Values` map. -/
def valuesLe (a b : String × List String) : Prop := leStr a.1 b.1 = true

instance : DecidableRel valuesLe := fun a b => instDecidableEqBool (leStr a.1 b.1) true

/-- The `sort.Strings(keys)` step of `Encode`, as a stable sort of the
map's entries by key (keys of a Go map are unique, so sorting entries and
sorting keys agree). -/
def sortValues (v : Values) : Values := List.insertionSort valuesLe v

/-- `url.Values.Encode` (net/url): keys sorted, each value of a key in its
given order, `key=value` pairs joined by `'&'`, both sides query-escaped. -/
def encodeValues (v : Values) : String :=
  if v.length = 0 then ""
  else
    String.intercalate "&"
      ((sortValues v).flatMap fun kv => kv.2.map fun x => queryEscape kv.1 ++ "=" ++ queryEscape x)

/-! ### `buildTargetURL` and `filterHeaders` (internal/client/http.go) -/

/-- The path-joining step of `buildTargetURL` (http.go lines 145–153):
drop one leading `'/'` of `path` when the base path ends in `'/'`, insert
one when neither side has the separator, otherwise concatenate as-is. -/
def joinedPath (basePath path : String) : String :=
  if path = "" then basePath
  else if strEnds basePath "/" && strStarts path "/" then basePath ++ dropChars path 1
  else if !(strEnds basePath "/") && !(strStarts path "/") then basePath ++ "/" ++ path
  else basePath ++ path

/-- `buildTargetURL` (http.go lines 137–161): parse the base URL, join the
relative path onto its path component, attach the encoded query parameters
when non-empty, and render. -/
def buildTargetURL (baseURL path : String) (queryParams : Values) : Except String String :=
  match parseURL baseURL with
  | .error e => .error ("invalid base URL: " ++ e)
  | .ok base =>
    let base := { base with path := joinedPath base.path path }
    let base :=
      if queryParams.length ≠ 0 then { base with rawQuery := encodeValues queryParams }
      else base
    .ok base.render

/-- The drop test of `filterHeaders`: header name matches `jpx-`
case-insensitively. -/
def isJpxKey (k : String) : Bool := "jpx-".toList.isPrefixOf (k.toList.map Char.toLower)

/-- `filterHeaders` (http.go lines 163–178): `nil` in, `nil` out; otherwise
rebuild the header map keeping exactly the entries whose name does not match
`jpx-` case-insensitively, each with its value list unchanged. -/
def filterHeaders : Option Headers → Option Headers
  | none => none
  | some h => some (h.filter fun kv => !(isJpxKey kv.1))

/-! ### Data model (internal/models/types.go) -/

/-- `models.Endpoint`. -/
structure Endpoint where
  name : String
  target : String
deriving DecidableEq

/-- `models.ProxyRequest`, the incoming request envelope.  `Body` is an
arbitrary decoded JSON value (`interface{}`); a Go `nil` body is `null`. -/
structure ProxyRequest where
  method : String
  body : Json
  transformationMode : String
  jqQuery : String

/-- `models.ProxyResponse`: transformed data plus the backend's status. -/
structure ProxyResponse where
  data : Json
  status : Nat

/-- `client.Response`: status code, response headers, raw body bytes
(modelled as a string; ASCII-faithful). -/
structure Response where
  statusCode : Nat
  headers : Headers
  body : String

/-- `models.ProxyConfig` restricted to what the service reads: the
endpoint table. -/
structure Config where
  endpoints : List (String × Endpoint)

/-- The valid method tokens of `ProxyRequest.Validate`. -/
def validMethods : List String :=
  ["GET", "POST", "PUT", "DELETE", "PATCH", "HEAD", "OPTIONS"]

/-- `ProxyRequest.Validate` (types.go lines 81–116).  The Go method mutates
the receiver — it installs the default transformation mode `"jq"` when the
field is empty; the embedding passes that state explicitly and returns the
request as it stands after validation. -/
def ProxyRequest.validate (pr : ProxyRequest) : Except String ProxyRequest :=
  if pr.method = "" then .error "method is required"
  else if !(validMethods.contains (upperStr pr.method)) then
    .error ("invalid HTTP method: " ++ pr.method)
  else
    let pr := if pr.transformationMode = "" then { pr with transformationMode := "jq" } else pr
    if pr.transformationMode ≠ "jq" then
      .error ("invalid transformation mode: " ++ pr.transformationMode ++ ". Must be 'jq'")
    else if pr.jqQuery = "" then .error "jq_query is required"
    else .ok pr

/-- `Endpoint.Validate` (types.go lines 144–160): name and target present,
target carrying an `http://` or `https://` scheme. -/
def Endpoint.validate (e : Endpoint) : Except String Unit :=
  if e.name = "" then .error "endpoint name is required"
  else if e.target = "" then .error "endpoint target is required"
  else if !(strStarts e.target "http://" || strStarts e.target "https://") then
    .error "endpoint target must be a valid HTTP/HTTPS URL"
  else .ok ()

/-! ### Response decoding helpers (internal/client/http.go lines 180–198) -/

/-- `http.Header.Get`: first value stored under the (case-insensitively
canonicalised) key, or `""`. -/
def getHeaderValue (h : Headers) (key : String) : String :=
  match h.find? fun kv => lowerStr kv.1 = lowerStr key with
  | some kv => kv.2.headD ""
  | none => ""

/-- `Response.IsJSONResponse`: the declared content type mentions
`application/json`, case-insensitively. -/
def Response.isJSONResponse (r : Response) : Bool :=
  strContainsSub (lowerStr (getHeaderValue r.headers "Content-Type")) "application/json"

/-- `Response.ParseJSONBody`: a zero-length body decodes to the null value
without consulting the JSON codec; otherwise defer to `json.Unmarshal`
(the abstract codec `um`). -/
def parseJSONBody (um : String → Except String Json) (body : String) : Except String Json :=
  if body = "" then .ok .null
  else
    match um body with
    | .error e => .error ("failed to parse JSON response: " ++ e)
    | .ok v => .ok v

/-! ### Typed errors (internal/proxy/service.go lines 198–278)

`EndpointNotFoundError`, `TransformationError` and `UpstreamError` as one
closed sum, with the `ProxyError` interface methods.  Details maps are
association lists in the insertion order of the Go map literals. -/

inductive ProxyError where
  | endpointNotFound : String → List String → ProxyError
  | transformation : String → List (String × Json) → ProxyError
  | upstream : String → Nat → List (String × Json) → ProxyError

/-- `HTTPStatusCode()` of each error type: 404, 422, and — for
`UpstreamError` — the stored status when it is at least 400, else 502. -/
def ProxyError.httpStatusCode : ProxyError → Nat
  | .endpointNotFound _ _ => 404
  | .transformation _ _ => 422
  | .upstream _ sc _ => if sc ≥ 400 then sc else 502

/-- `ErrorCode()` of each error type. -/
def ProxyError.errorCode : ProxyError → String
  | .endpointNotFound _ _ => "ENDPOINT_NOT_FOUND"
  | .transformation _ _ => "TRANSFORMATION_ERROR"
  | .upstream _ _ _ => "UPSTREAM_ERROR"

/-- `Error()` of each error type (the human message). -/
def ProxyError.message : ProxyError → String
  | .endpointNotFound name _ => "endpoint '" ++ name ++ "' not found"
  | .transformation msg _ => msg
  | .upstream msg _ _ => msg

/-- `ErrorDetails()` of each error type. -/
def ProxyError.errorDetails : ProxyError → List (String × Json)
  | .endpointNotFound _ avail => [("available_endpoints", .arr (avail.map .str))]
  | .transformation _ d => d
  | .upstream _ _ d => d

/-! ### Unified transformer dispatch (internal/transform/unified.go)

The service is constructed with a `UnifiedTransformer`, which dispatches on
the request's transformation mode and delegates mode `"jq"` to the
`JQTransformer`; any other mode is rejected. -/

/-- `UnifiedTransformer.ValidateTransformation`. -/
def validateTransformation (E : JqEngine) (req : ProxyRequest) : Except String Unit :=
  if req.transformationMode ≠ "jq" then
    .error ("unsupported transformation mode: " ++ req.transformationMode)
  else validateQuery E req.jqQuery

/-- `UnifiedTransformer.TransformRequest`. -/
def transformRequest (E : JqEngine) (data : Json) (req : ProxyRequest) : Except String Json :=
  if req.transformationMode ≠ "jq" then
    .error ("unsupported transformation mode: " ++ req.transformationMode)
  else transformWithQuery E data req.jqQuery

/-! ### The request processor (internal/proxy/service.go lines 35–196) -/

/-- The service's collaborators: the jq engine, the JSON codec of the
standard library, the configuration provider (`GetEndpoint`/`LoadConfig`),
and the network transport behind `client.Client.Do`.  All are abstract
function-valued fields, matching the collaborator boundaries of the spec. -/
structure Env where
  engine : JqEngine
  unmarshal : String → Except String Json
  getEndpoint : String → Option Endpoint
  loadConfig : Except String (Option Config)
  doNet : String → String → Option Headers → Json → Except String Response

/-- `Service.getAvailableEndpoints`: names from a fresh `LoadConfig`, or an
empty list when loading fails or yields no configuration. -/
def getAvailableEndpoints (env : Env) : List String :=
  match env.loadConfig with
  | .error _ => []
  | .ok none => []
  | .ok (some cfg) => cfg.endpoints.map (·.1)

/-- `client.Client.ForwardRequest` (http.go lines 115–135): build the
target URL, filter the `jpx-` headers, then perform the outbound call. -/
def clientForwardRequest (env : Env) (method baseURL path : String) (qp : Values)
    (headers : Option Headers) (body : Json) : Except String Response :=
  match buildTargetURL baseURL path qp with
  | .error e => .error ("failed to build target URL: " ++ e)
  | .ok url => env.doNet method url (filterHeaders headers) body

/-- `Service.forwardRequest` (service.go lines 131–170): delegate to the
client; a failed exchange becomes an `UpstreamError` with HTTP 502 and
details `{endpoint, target, error}`.  A non-2xx backend status is only
logged — the response is returned unchanged. -/
def serviceForwardRequest (env : Env) (ep : Endpoint) (path : String) (qp : Values)
    (headers : Option Headers) (req : ProxyRequest) : Except ProxyError Response :=
  match clientForwardRequest env req.method ep.target path qp headers req.body with
  | .error e =>
    .error (.upstream "Failed to connect to target endpoint" 502
      [("endpoint", .str ep.name), ("target", .str ep.target), ("error", .str e)])
  | .ok r => .ok r

/-- The decode step of `Service.HandleRequest` (service.go lines 73–91):
JSON-typed responses are parsed (failure ⇒ `UpstreamError` with the
backend's status and details `{endpoint, error}`); any other response body
is passed through as a string value. -/
def decodeResponse (env : Env) (endpointName : String) (r : Response) : Except ProxyError Json :=
  if r.isJSONResponse then
    match parseJSONBody env.unmarshal r.body with
    | .error e =>
      .error (.upstream "Failed to parse response from target endpoint" r.statusCode
        [("endpoint", .str endpointName), ("error", .str e)])
    | .ok v => .ok v
  else .ok (.str r.body)

/-- `Service.HandleRequest` (service.go lines 35–128): resolve the
endpoint, validate the transformation, forward, decode, transform, respond
with the backend's status.  The second component counts the invocations of
the Forwarder (`httpClient.ForwardRequest`), the observable the spec's
ordering property speaks about. -/
def handleRequest (env : Env) (endpointName path : String) (qp : Values)
    (headers : Option Headers) (req : ProxyRequest) : Except ProxyError ProxyResponse × Nat :=
  match env.getEndpoint endpointName with
  | none => (.error (.endpointNotFound endpointName (getAvailableEndpoints env)), 0)
  | some ep =>
    match validateTransformation env.engine req with
    | .error e =>
      (.error (.transformation ("Invalid transformation: " ++ e)
        [("transformation_mode", .str req.transformationMode),
         ("jq_query", .str req.jqQuery)]), 0)
    | .ok _ =>
      match serviceForwardRequest env ep path qp headers req with
      | .error pe => (.error pe, 1)
      | .ok r =>
        match decodeResponse env endpointName r with
        | .error pe => (.error pe, 1)
        | .ok responseData =>
          match transformRequest env.engine responseData req with
          | .error e =>
            (.error (.transformation ("Failed to transform response: " ++ e)
              [("transformation_mode", .str req.transformationMode),
               ("jq_query", .str req.jqQuery), ("error", .str e)]), 1)
          | .ok t => (.ok ⟨t, r.statusCode⟩, 1)

/-! ### Transport-adapter error mapping (internal/proxy/handler.go
lines 117–138) -/

/-- The error a handler receives: a typed `ProxyError`, or any other Go
error (the failed type assertion's branch). -/
inductive GoErr where
  | proxy : ProxyError → GoErr
  | other : String → GoErr

/-- The serialized error surface: HTTP status, machine code, message,
optional details map. -/
structure ErrorBody where
  status : Nat
  code : String
  message : String
  details : Option (List (String × Json))

/-- `Handler.handleProxyError`: a `ProxyError` renders through its
interface methods; anything else becomes `500 INTERNAL_ERROR` with no
details. -/
def handleProxyError : GoErr → ErrorBody
  | .proxy e => ⟨e.httpStatusCode, e.errorCode, e.message, some e.errorDetails⟩
  | .other _ => ⟨500, "INTERNAL_ERROR", "An unexpected error occurred", none⟩

/-- The tail of `HandleRequest` from the transform step on (service.go
lines 93–128), shared by the decode-related statements: run the unified
transformer on the decoded value and produce the final result. -/
def transformStage (env : Env) (r : Response) (req : ProxyRequest) (d : Json) :
    Except ProxyError ProxyResponse × Nat :=
  match transformRequest env.engine d req with
  | .error e =>
    (.error (.transformation ("Failed to transform response: " ++ e)
      [("transformation_mode", .str req.transformationMode),
       ("jq_query", .str req.jqQuery), ("error", .str e)]), 1)
  | .ok t => (.ok ⟨t, r.statusCode⟩, 1)

/-! ### Concrete fixtures for witnesses and counterexamples -/

/-- A concrete jq engine: rejects the query `".bad("`, treats every other
query as the identity program. -/
def egEngine : JqEngine where
  parse := fun q => if q = ".bad(" then .error "unexpected token" else .ok 0
  compile := fun _ => .ok 0
  run := fun _ d => [.ok d]

/-- A concrete configured endpoint. -/
def egEndpoint : Endpoint := ⟨"api", "https://api.example.com"⟩

/-- A concrete environment: one endpoint, a codec that accepts `"{}"`, a
backend answering 404 with a JSON body. -/
def egEnv : Env where
  engine := egEngine
  unmarshal := fun s => if s = "{}" then .ok (.obj []) else .error "unexpected end of JSON input"
  getEndpoint := fun n => if n = "api" then some egEndpoint else none
  loadConfig := .ok (some ⟨[("api", egEndpoint)]⟩)
  doNet := fun _ _ _ _ => .ok ⟨404, [("Content-Type", ["application/json"])], "{}"⟩

/-- Like `egEnv`, but the backend answers 200 with an empty
`application/json` body. -/
def egEnvEmpty : Env :=
  { egEnv with doNet := fun _ _ _ _ => .ok ⟨200, [("Content-Type", ["application/json"])], ""⟩ }

/-- Like `egEnv`, but the backend answers `text/plain`. -/
def egEnvText : Env :=
  { egEnv with doNet := fun _ _ _ _ => .ok ⟨200, [("Content-Type", ["text/plain"])], "hello"⟩ }

/-- An envelope with a syntactically invalid query. -/
def egReqBad : ProxyRequest := ⟨"GET", .null, "jq", ".bad("⟩

/-- An envelope with the identity query. -/
def egReqOK : ProxyRequest := ⟨"GET", .null, "jq", "."⟩

/-- An envelope whose query parses but fails compilation (the repository's
own test query for a compile-stage failure). -/
def egReqCF : ProxyRequest := ⟨"GET", .null, "jq", ".users | invalid_function"⟩

/-- A concrete engine whose parser accepts `".users | invalid_function"`
but whose compiler rejects it, mirroring gojq, where an undefined function
is reported by `gojq.Compile`, not `gojq.Parse`. -/
def egEngineCF : JqEngine where
  parse := fun q =>
    if q = ".bad(" then .error "unexpected token"
    else if q = ".users | invalid_function" then .ok 1
    else .ok 0
  compile := fun n =>
    if n = 1 then .error "function not defined: invalid_function/0" else .ok 0
  run := fun _ d => [.ok d]

/-- `egEnv` with the compile-rejecting engine. -/
def egEnvCF : Env := { egEnv with engine := egEngineCF }

/-! ### Order lemmas for the byte-wise string comparison -/

theorem leChars_total (a b : List Char) : leChars a b = true ∨ leChars b a = true := by
  induction a generalizing b with
  | nil => left; rfl
  | cons x xs ih =>
    cases b with
    | nil => right; rfl
    | cons y ys =>
      by_cases h1 : x.toNat < y.toNat
      · left; simp [leChars, h1]
      · by_cases h2 : y.toNat < x.toNat
        · right; simp [leChars, h1, h2]
        · rcases ih ys with h | h
          · left; simp [leChars, h1, h2, h]
          · right; simp [leChars, h1, h2, h]

theorem leChars_trans (a b c : List Char) (h1 : leChars a b = true)
    (h2 : leChars b c = true) : leChars a c = true := by
  induction a generalizing b c with
  | nil => rfl
  | cons x xs ih =>
    cases b with
    | nil => simp [leChars] at h1
    | cons y ys =>
      cases c with
      | nil => simp [leChars] at h2
      | cons z zs =>
        simp only [leChars] at h1 h2 ⊢
        by_cases hxy : x.toNat < y.toNat <;> by_cases hyz : y.toNat < z.toNat <;>
          by_cases hxz : x.toNat < z.toNat <;> simp_all
        all_goals first
          | omega
          | (right; exact ⟨by omega, ih ys zs h1.2 h2.2⟩)

theorem leStr_total (a b : String) : leStr a b = true ∨ leStr b a = true :=
  leChars_total a.toList b.toList

theorem leStr_trans {a b c : String} (h1 : leStr a b = true) (h2 : leStr b c = true) :
    leStr a c = true :=
  leChars_trans a.toList b.toList c.toList h1 h2

instance : IsTotal (String × List String) valuesLe := ⟨fun a b => leStr_total a.1 b.1⟩

instance : IsTrans (String × List String) valuesLe := ⟨fun _ _ _ => leStr_trans⟩

/-! ## Claims -/

/-- C1: for every decoded input value and every syntactically valid query
(the engine parses and compiles it), if executing the compiled query
produces zero result values the transformed value is the null value, not an
error; exactly one result value is returned unwrapped; two or more result
values are returned as the ordered sequence of exactly those values in
production order. -/
theorem resultCollapsingLaw (E : JqEngine) (data : Json) (query : String) (q c : Nat)
    (vs : List Json) (hq : query ≠ "") (hp : E.parse query = .ok q)
    (hc : E.compile q = .ok c) (hr : collectResults (E.run c data) = .ok vs) :
    (vs = [] → transformWithQuery E data query = .ok .null) ∧
    (∀ v, vs = [v] → transformWithQuery E data query = .ok v) ∧
    (2 ≤ vs.length → transformWithQuery E data query = .ok (.arr vs)) := by
  have hbase : transformWithQuery E data query = .ok (collapse vs) := by
    simp [transformWithQuery, hq, hp, hc, hr]
  refine ⟨?_, ?_, ?_⟩
  · rintro rfl; exact hbase
  · rintro v rfl; exact hbase
  · intro hlen
    cases vs with
    | nil => simp at hlen
    | cons v1 tail =>
      cases tail with
      | nil => simp at hlen
      | cons v2 rest => exact hbase

/-- Witness for C1: the concrete engine's identity query on a concrete
number produces exactly one result, returned unwrapped. -/
theorem resultCollapsingLaw_witness :
    transformWithQuery egEngine (.num 7) "." = .ok (.num 7) :=
  (resultCollapsingLaw egEngine (.num 7) "." 0 0 [.num 7]
    (by decide) rfl rfl rfl).2.1 (.num 7) rfl

/-- C5: header filtering removes exactly the keys matching `jpx-`
case-insensitively, keeps every other entry with its value list unchanged
(a sublist, so casing and multi-value order are preserved), is idempotent,
and maps an absent (`nil`) header set to `nil`. -/
theorem headerFilteringLaws :
    filterHeaders none = none ∧
    (∀ x : Option Headers, filterHeaders (filterHeaders x) = filterHeaders x) ∧
    (∀ h h' : Headers, filterHeaders (some h) = some h' →
      (∀ kv, kv ∈ h' → isJpxKey kv.1 = false ∧ kv ∈ h) ∧
      (∀ kv, kv ∈ h → isJpxKey kv.1 = false → kv ∈ h') ∧
      h'.Sublist h) ∧
    (∀ h : Headers, (∀ kv, kv ∈ h → isJpxKey kv.1 = false) → filterHeaders (some h) = some h) := by
  refine ⟨rfl, ?_, ?_, ?_⟩
  · intro x
    cases x with
    | none => rfl
    | some h => simp [filterHeaders, List.filter_filter]
  · intro h h' hf
    have hf' : (h.filter fun kv => !(isJpxKey kv.1)) = h' := by
      have := hf
      simp only [filterHeaders, Option.some.injEq] at this
      exact this
    subst hf'
    refine ⟨?_, ?_, List.filter_sublist h⟩
    · intro kv hkv
      have hm := List.mem_filter.mp hkv
      exact ⟨by simpa using hm.2, hm.1⟩
    · intro kv hkv hkey
      exact List.mem_filter.mpr ⟨hkv, by simp [hkey]⟩
  · intro h hall
    simp only [filterHeaders, Option.some.injEq]
    apply List.filter_eq_self.mpr
    intro kv hkv
    simp [hall kv hkv]

/-- Witness for C5: filtering a header set free of `jpx-` names is the
identity. -/
theorem headerFilteringLaws_witness :
    filterHeaders (some [("Accept", ["a", "b"]), ("X-Trace", ["t"])]) =
      some [("Accept", ["a", "b"]), ("X-Trace", ["t"])] :=
  headerFilteringLaws.2.2.2 [("Accept", ["a", "b"]), ("X-Trace", ["t"])] (by decide)

/-- C2 counterexample: the query `".users | invalid_function"` parses but
fails compilation.  It passes pre-forward validation (`ValidateQuery` only
parses), the Forwarder IS invoked once, and the compile failure surfaces
only after forwarding as a post-forward `TransformationError` — refuting
the claim that for every request whose query fails compilation the
Forwarder is never invoked and compilation happens before forwarding. -/
theorem transformationBeforeForward_cex :
    validateQuery egEngineCF ".users | invalid_function" = .ok () ∧
    egEngineCF.parse ".users | invalid_function" = .ok 1 ∧
    egEngineCF.compile 1 = .error "function not defined: invalid_function/0" ∧
    (handleRequest egEnvCF "api" "/u" [] none egReqCF).2 = 1 ∧
    (handleRequest egEnvCF "api" "/u" [] none egReqCF).1 =
      .error (.transformation
        "Failed to transform response: failed to compile jq query: function not defined: invalid_function/0"
        [("transformation_mode", .str "jq"),
         ("jq_query", .str ".users | invalid_function"),
         ("error", .str "failed to compile jq query: function not defined: invalid_function/0")]) :=
  ⟨rfl, rfl, rfl, rfl, rfl⟩

/-- C2 (amended): only parse failures are caught before forwarding.  When
the request reaches the validation step (the endpoint resolves) and its
query fails to parse, processing returns a `TransformationError`
(code `TRANSFORMATION_ERROR`, status 422) and the Forwarder is invoked
zero times; in general a positive Forwarder invocation count implies the
transformation validated successfully first.  A query that parses but
fails compilation, however, passes validation, is forwarded exactly once,
and its failure surfaces only post-forward as a `TransformationError`
carrying the compile error. -/
theorem transformationBeforeForward (env : Env) (name path : String) (qp : Values)
    (headers : Option Headers) (req : ProxyRequest) (ep : Endpoint) (msg : String)
    (hep : env.getEndpoint name = some ep)
    (hmode : req.transformationMode = "jq")
    (hq : req.jqQuery ≠ "")
    (hparse : env.engine.parse req.jqQuery = .error msg) :
    (handleRequest env name path qp headers req).2 = 0 ∧
    (handleRequest env name path qp headers req).1 =
      .error (.transformation ("Invalid transformation: " ++ ("invalid jq query: " ++ msg))
        [("transformation_mode", .str req.transformationMode),
         ("jq_query", .str req.jqQuery)]) ∧
    (∀ e, (handleRequest env name path qp headers req).1 = .error e →
      e.errorCode = "TRANSFORMATION_ERROR" ∧ e.httpStatusCode = 422) ∧
    (∀ (env' : Env) (n' p' : String) (qp' : Values) (h' : Option Headers) (r' : ProxyRequest),
      0 < (handleRequest env' n' p' qp' h' r').2 →
      validateTransformation env'.engine r' = .ok ()) ∧
    (∀ (env' : Env) (n' p' : String) (qp' : Values) (h' : Option Headers) (r' : ProxyRequest)
       (ep' : Endpoint) (q : Nat) (msg' : String) (r : Response) (d : Json),
      env'.getEndpoint n' = some ep' →
      r'.transformationMode = "jq" →
      r'.jqQuery ≠ "" →
      env'.engine.parse r'.jqQuery = .ok q →
      env'.engine.compile q = .error msg' →
      serviceForwardRequest env' ep' p' qp' h' r' = .ok r →
      decodeResponse env' n' r = .ok d →
      (handleRequest env' n' p' qp' h' r').2 = 1 ∧
      (handleRequest env' n' p' qp' h' r').1 =
        .error (.transformation
          ("Failed to transform response: " ++ ("failed to compile jq query: " ++ msg'))
          [("transformation_mode", .str r'.transformationMode),
           ("jq_query", .str r'.jqQuery),
           ("error", .str ("failed to compile jq query: " ++ msg'))])) := by
  have hval : validateTransformation env.engine req =
      .error ("invalid jq query: " ++ msg) := by
    simp [validateTransformation, validateQuery, hmode, hq, hparse]
  have hmain : handleRequest env name path qp headers req =
      (.error (.transformation ("Invalid transformation: " ++ ("invalid jq query: " ++ msg))
        [("transformation_mode", .str req.transformationMode),
         ("jq_query", .str req.jqQuery)]), 0) := by
    simp [handleRequest, hep, hval]
  refine ⟨by rw [hmain], by rw [hmain], ?_, ?_, ?_⟩
  · intro e he
    rw [hmain] at he
    cases he
    exact ⟨rfl, rfl⟩
  · intro env' n' p' qp' h' r' hpos
    unfold handleRequest at hpos
    cases hge : env'.getEndpoint n' with
    | none => rw [hge] at hpos; simp at hpos
    | some ep' =>
      rw [hge] at hpos
      cases hv : validateTransformation env'.engine r' with
      | error e => rw [hv] at hpos; simp at hpos
      | ok u => cases u; rfl
  · intro env' n' p' qp' h' r' ep' q' msg' r d hep' hmode' hq' hparse' hcomp' hsf' hd'
    have hval' : validateTransformation env'.engine r' = .ok () := by
      simp [validateTransformation, validateQuery, hmode', hq', hparse']
    have htr : transformRequest env'.engine d r' =
        .error ("failed to compile jq query: " ++ msg') := by
      simp [transformRequest, hmode', transformWithQuery, hq', hparse', hcomp']
    constructor
    · simp [handleRequest, hep', hval', hsf', hd', htr]
    · simp [handleRequest, hep', hval', hsf', hd', htr]

/-- Witness for C2: the invalid query `".bad("` yields zero Forwarder
invocations on the concrete environment. -/
theorem transformationBeforeForward_witness :
    (handleRequest egEnv "api" "/u" [] none egReqBad).2 = 0 :=
  (transformationBeforeForward egEnv "api" "/u" [] none egReqBad egEndpoint
    "unexpected token" rfl rfl (by decide) rfl).1

/-- C4: when resolution, validation, forwarding, decoding and
transformation all succeed, the returned `ProxyResponse` carries the
backend's original status code unchanged — for every status value,
including those at or above 400. -/
theorem statusCodePropagation (env : Env) (name path : String) (qp : Values)
    (headers : Option Headers) (req : ProxyRequest) (ep : Endpoint) (r : Response)
    (d t : Json)
    (hep : env.getEndpoint name = some ep)
    (hv : validateTransformation env.engine req = .ok ())
    (hf : clientForwardRequest env req.method ep.target path qp headers req.body = .ok r)
    (hd : decodeResponse env name r = .ok d)
    (ht : transformRequest env.engine d req = .ok t) :
    handleRequest env name path qp headers req = (.ok ⟨t, r.statusCode⟩, 1) := by
  have hsf : serviceForwardRequest env ep path qp headers req = .ok r := by
    simp [serviceForwardRequest, hf]
  simp [handleRequest, hep, hv, hsf, hd, ht]

/-- Witness for C4: the concrete backend answers 404 with a parseable JSON
body; the processed result carries status 404, not 200. -/
theorem statusCodePropagation_witness :
    handleRequest egEnv "api" "/u" [] none egReqOK =
      (.ok ⟨.obj [], 404⟩, 1) :=
  statusCodePropagation egEnv "api" "/u" [] none egReqOK egEndpoint
    ⟨404, [("Content-Type", ["application/json"])], "{}"⟩ (.obj []) (.obj [])
    rfl rfl rfl rfl rfl

/-- C7: after a successful forward, a response whose content type indicates
JSON has its body parsed and the parsed value fed to the transformation;
a parse failure becomes an `UpstreamError` with details `{endpoint, error}`;
a non-JSON response feeds the raw body to the transformation as a string
value. -/
theorem contentTypeAwareDecoding (env : Env) (name path : String) (qp : Values)
    (headers : Option Headers) (req : ProxyRequest) (ep : Endpoint) (r : Response)
    (hep : env.getEndpoint name = some ep)
    (hv : validateTransformation env.engine req = .ok ())
    (hf : clientForwardRequest env req.method ep.target path qp headers req.body = .ok r) :
    (∀ v, r.isJSONResponse = true → parseJSONBody env.unmarshal r.body = .ok v →
      handleRequest env name path qp headers req = transformStage env r req v) ∧
    (∀ e, r.isJSONResponse = true → parseJSONBody env.unmarshal r.body = .error e →
      handleRequest env name path qp headers req =
        (.error (.upstream "Failed to parse response from target endpoint" r.statusCode
          [("endpoint", .str name), ("error", .str e)]), 1)) ∧
    (r.isJSONResponse = false →
      handleRequest env name path qp headers req = transformStage env r req (.str r.body)) := by
  have hsf : serviceForwardRequest env ep path qp headers req = .ok r := by
    simp [serviceForwardRequest, hf]
  refine ⟨?_, ?_, ?_⟩
  · intro v hj hp
    have hd : decodeResponse env name r = .ok v := by simp [decodeResponse, hj, hp]
    simp [handleRequest, hep, hv, hsf, hd, transformStage]
  · intro e hj hp
    have hd : decodeResponse env name r =
        .error (.upstream "Failed to parse response from target endpoint" r.statusCode
          [("endpoint", .str name), ("error", .str e)]) := by
      simp [decodeResponse, hj, hp]
    simp [handleRequest, hep, hv, hsf, hd]
  · intro hj
    have hd : decodeResponse env name r = .ok (.str r.body) := by
      simp [decodeResponse, hj]
    simp [handleRequest, hep, hv, hsf, hd, transformStage]

/-- Witness for C7: a `text/plain` backend response feeds the raw string
`"hello"` to the transformation. -/
theorem contentTypeAwareDecoding_witness :
    handleRequest egEnvText "api" "/u" [] none egReqOK =
      transformStage egEnvText ⟨200, [("Content-Type", ["text/plain"])], "hello"⟩ egReqOK
        (.str "hello") :=
  (contentTypeAwareDecoding egEnvText "api" "/u" [] none egReqOK egEndpoint
    ⟨200, [("Content-Type", ["text/plain"])], "hello"⟩ rfl rfl rfl).2.2 rfl

/-- C10: a forwarded response that declares JSON and has a zero-length body
decodes successfully to the null value — for any codec, without producing an
`UpstreamFailure` — and the transformation runs with null as its input. -/
theorem emptyJsonBodyDecodesNull (env : Env) (name path : String) (qp : Values)
    (headers : Option Headers) (req : ProxyRequest) (ep : Endpoint) (r : Response)
    (hep : env.getEndpoint name = some ep)
    (hv : validateTransformation env.engine req = .ok ())
    (hf : clientForwardRequest env req.method ep.target path qp headers req.body = .ok r)
    (hjson : r.isJSONResponse = true) (hbody : r.body = "") :
    (∀ um : String → Except String Json, parseJSONBody um "" = .ok .null) ∧
    decodeResponse env name r = .ok .null ∧
    handleRequest env name path qp headers req = transformStage env r req .null := by
  have hdec : decodeResponse env name r = .ok .null := by
    simp [decodeResponse, hjson, parseJSONBody, hbody]
  have hsf : serviceForwardRequest env ep path qp headers req = .ok r := by
    simp [serviceForwardRequest, hf]
  exact ⟨fun um => rfl, hdec, by simp [handleRequest, hep, hv, hsf, hdec, transformStage]⟩

/-- Witness for C10: the concrete empty-bodied JSON backend leads to the
transformation running on null. -/
theorem emptyJsonBodyDecodesNull_witness :
    decodeResponse egEnvEmpty "api" ⟨200, [("Content-Type", ["application/json"])], ""⟩ =
      .ok .null :=
  (emptyJsonBodyDecodesNull egEnvEmpty "api" "/u" [] none egReqOK egEndpoint
    ⟨200, [("Content-Type", ["application/json"])], ""⟩ rfl rfl rfl rfl rfl).2.1

/-- The taxonomy row each produced error actually satisfies, per the code:
`EndpointNotFoundError` ⇒ 404 / `ENDPOINT_NOT_FOUND` / `{available_endpoints}`;
`TransformationError` ⇒ 422 / `TRANSFORMATION_ERROR` with details keys
`{transformation_mode, jq_query}` (validation failure) or
`{transformation_mode, jq_query, error}` (execution failure);
`UpstreamError` ⇒ `UPSTREAM_ERROR` with status `502` and details
`{endpoint, target, error}` (connectivity failure), or the backend's status
when ≥ 400 else 502 with details `{endpoint, error}` (JSON parse failure). -/
def amendedErrorRow (e : ProxyError) : Prop :=
  match e with
  | .endpointNotFound _ _ =>
    e.httpStatusCode = 404 ∧ e.errorCode = "ENDPOINT_NOT_FOUND" ∧
    e.errorDetails.map Prod.fst = ["available_endpoints"]
  | .transformation _ d =>
    e.httpStatusCode = 422 ∧ e.errorCode = "TRANSFORMATION_ERROR" ∧
    (d.map Prod.fst = ["transformation_mode", "jq_query"] ∨
     d.map Prod.fst = ["transformation_mode", "jq_query", "error"])
  | .upstream _ sc d =>
    e.errorCode = "UPSTREAM_ERROR" ∧
    e.httpStatusCode = (if sc ≥ 400 then sc else 502) ∧
    ((sc = 502 ∧ d.map Prod.fst = ["endpoint", "target", "error"]) ∨
     d.map Prod.fst = ["endpoint", "error"])

/-- C3 counterexample: at a concrete request whose query fails to compile,
the surfaced `TransformationError` carries the details keys
`transformation_mode` and `jq_query` — not the single key `query` of the
spec's table. -/
theorem errorTaxonomyMapping_cex :
    (handleRequest egEnv "api" "/u" [] none egReqBad).1 =
      .error (.transformation "Invalid transformation: invalid jq query: unexpected token"
        [("transformation_mode", .str "jq"), ("jq_query", .str ".bad(")]) ∧
    (ProxyError.transformation "Invalid transformation: invalid jq query: unexpected token"
      [("transformation_mode", .str "jq"),
       ("jq_query", .str ".bad(")]).errorDetails.map Prod.fst ≠ ["query"] :=
  ⟨rfl, by decide⟩

/-- C3 (amended): every error the request processor surfaces maps to its
kind's fixed status and machine code, with the details-key shapes the code
actually emits (`amendedErrorRow`); the transport adapter renders a typed
error through its interface methods and any other error as
`500 INTERNAL_ERROR` with no details. -/
theorem errorTaxonomyMapping (env : Env) (name path : String) (qp : Values)
    (headers : Option Headers) (req : ProxyRequest) (e : ProxyError)
    (he : (handleRequest env name path qp headers req).1 = .error e) :
    amendedErrorRow e ∧
    handleProxyError (.proxy e) =
      ⟨e.httpStatusCode, e.errorCode, e.message, some e.errorDetails⟩ ∧
    (∀ m, handleProxyError (.other m) =
      ⟨500, "INTERNAL_ERROR", "An unexpected error occurred", none⟩) := by
  refine ⟨?_, rfl, fun m => rfl⟩
  unfold handleRequest at he
  cases hge : env.getEndpoint name with
  | none =>
    simp only [hge, Except.error.injEq] at he
    subst he
    simp [amendedErrorRow, ProxyError.httpStatusCode, ProxyError.errorCode,
      ProxyError.errorDetails]
  | some ep =>
    simp only [hge] at he
    cases hval : validateTransformation env.engine req with
    | error msg =>
      simp only [hval, Except.error.injEq] at he
      subst he
      simp [amendedErrorRow, ProxyError.httpStatusCode, ProxyError.errorCode]
    | ok u =>
      cases u
      simp only [hval] at he
      cases hsf : serviceForwardRequest env ep path qp headers req with
      | error pe =>
        simp only [hsf, Except.error.injEq] at he
        subst he
        unfold serviceForwardRequest at hsf
        cases hcf : clientForwardRequest env req.method ep.target path qp headers req.body with
        | error msg =>
          simp only [hcf, Except.error.injEq] at hsf
          subst hsf
          simp [amendedErrorRow, ProxyError.httpStatusCode, ProxyError.errorCode]
        | ok r => simp [hcf] at hsf
      | ok r =>
        simp only [hsf] at he
        cases hd : decodeResponse env name r with
        | error pe =>
          simp only [hd, Except.error.injEq] at he
          subst he
          unfold decodeResponse at hd
          by_cases hj : r.isJSONResponse = true
          · rw [if_pos hj] at hd
            cases hpb : parseJSONBody env.unmarshal r.body with
            | error msg =>
              simp only [hpb, Except.error.injEq] at hd
              subst hd
              simp [amendedErrorRow, ProxyError.httpStatusCode, ProxyError.errorCode]
            | ok v => simp [hpb] at hd
          · rw [if_neg hj] at hd; simp at hd
        | ok d =>
          simp only [hd] at he
          cases ht : transformRequest env.engine d req with
          | error msg =>
            simp only [ht, Except.error.injEq] at he
            subst he
            simp [amendedErrorRow, ProxyError.httpStatusCode, ProxyError.errorCode]
          | ok t => simp [ht] at he

/-- Witness for C3 (amended) at the concrete invalid-query request. -/
theorem errorTaxonomyMapping_witness :
    amendedErrorRow (.transformation "Invalid transformation: invalid jq query: unexpected token"
      [("transformation_mode", .str "jq"), ("jq_query", .str ".bad(")]) :=
  (errorTaxonomyMapping egEnv "api" "/u" [] none egReqBad
    (.transformation "Invalid transformation: invalid jq query: unexpected token"
      [("transformation_mode", .str "jq"), ("jq_query", .str ".bad(")]) rfl).1

/-- C6: the target URL joins base path and relative path per the
three-case separator rule (strip one leading slash, insert one slash, or
concatenate as-is), query parameters encode with keys sorted in byte-wise
lexicographic order and per-key values kept in their given order, and the
spec's concrete base/path examples produce exactly the expected URLs with
no doubled slash. -/
theorem urlConstructionAlgorithm :
    (∀ basePath path : String, path ≠ "" →
      (strEnds basePath "/" = true → strStarts path "/" = true →
        joinedPath basePath path = basePath ++ dropChars path 1) ∧
      (strEnds basePath "/" = false → strStarts path "/" = false →
        joinedPath basePath path = basePath ++ "/" ++ path) ∧
      (strEnds basePath "/" ≠ strStarts path "/" →
        joinedPath basePath path = basePath ++ path)) ∧
    (∀ v : Values,
      List.Pairwise valuesLe (sortValues v) ∧
      (sortValues v).Perm v ∧
      (v ≠ [] → encodeValues v = String.intercalate "&"
        ((sortValues v).flatMap fun kv => kv.2.map fun x =>
          queryEscape kv.1 ++ "=" ++ queryEscape x))) ∧
    buildTargetURL "https://api.example.com" "/users" [] =
      .ok "https://api.example.com/users" ∧
    buildTargetURL "https://api.example.com/" "/users" [] =
      .ok "https://api.example.com/users" ∧
    buildTargetURL "https://api.example.com" "users" [("b", ["2"]), ("a", ["1", "3"])] =
      .ok "https://api.example.com/users?a=1&a=3&b=2" := by
  refine ⟨?_, ?_, rfl, rfl, rfl⟩
  · intro basePath path hp
    refine ⟨?_, ?_, ?_⟩
    · intro he hs; simp [joinedPath, hp, he, hs]
    · intro he hs; simp [joinedPath, hp, he, hs]
    · intro hne
      cases hE : strEnds basePath "/" <;> cases hS : strStarts path "/" <;>
        rw [hE, hS] at hne <;> simp [joinedPath, hp, hE, hS] at hne ⊢
  · intro v
    refine ⟨List.sorted_insertionSort valuesLe v, List.perm_insertionSort valuesLe v, ?_⟩
    intro hv
    have hlen : v.length ≠ 0 := fun h => hv (List.length_eq_zero.mp h)
    simp [encodeValues, sortValues, hlen]

/-- Witness for C6: the strip-one-slash case at a concrete base path and
relative path. -/
theorem urlConstructionAlgorithm_witness :
    joinedPath "/v1/" "/users" = "/v1/" ++ dropChars "/users" 1 :=
  (urlConstructionAlgorithm.1 "/v1/" "/users" (by decide)).1 rfl rfl

/-- C8 counterexample: the base URL `"users"` does not parse as an
absolute URL (its scheme is empty), yet URL construction succeeds instead
of failing. -/
theorem invalidBaseURLFailure_cex :
    buildTargetURL "users" "/users" [] = .ok "users/users" ∧
    parseURL "users" = .ok { path := "users" } ∧
    ({ path := "users" } : URL).scheme = "" :=
  ⟨rfl, rfl, rfl⟩

/-- C8 (amended): building the target URL fails exactly when `url.Parse`
fails on the base URL — a merely non-absolute base is accepted; the
requirement that a configured target be an absolute `http(s)` URL is
enforced separately by `Endpoint.Validate`'s scheme check. -/
theorem invalidBaseURLFailure (b p : String) (q : Values) :
    ((buildTargetURL b p q).isOk = true ↔ (parseURL b).isOk = true) ∧
    (∀ ep : Endpoint, ep.validate = .ok () →
      (strStarts ep.target "http://" = true ∨ strStarts ep.target "https://" = true)) := by
  constructor
  · unfold buildTargetURL
    cases parseURL b <;> simp [Except.isOk, Except.toBool]
  · intro ep hval
    unfold Endpoint.validate at hval
    split_ifs at hval with h1 h2 h3
    have hor : (strStarts ep.target "http://" || strStarts ep.target "https://") = true := by
      cases hx : (strStarts ep.target "http://" || strStarts ep.target "https://")
      · exact absurd (by simp [hx]) h3
      · rfl
    simpa using hor

/-- Witness for C8 (amended) at a concrete absolute base URL and a
concrete validated endpoint. -/
theorem invalidBaseURLFailure_witness :
    ((buildTargetURL "https://api.example.com" "/users" []).isOk = true ↔
      (parseURL "https://api.example.com").isOk = true) ∧
    (strStarts egEndpoint.target "http://" = true ∨
      strStarts egEndpoint.target "https://" = true) :=
  ⟨(invalidBaseURLFailure "https://api.example.com" "/users" []).1,
   (invalidBaseURLFailure "https://api.example.com" "/users" []).2 egEndpoint rfl⟩

/-- C9 counterexample: envelope validation mutates the envelope — an empty
transformation-mode field is rewritten to `"jq"`, so the field differs
before and after validation. -/
theorem envelopeImmutability_cex :
    ProxyRequest.validate ⟨"GET", .null, "", ".foo"⟩ =
      .ok ⟨"GET", .null, "jq", ".foo"⟩ ∧ ("" : String) ≠ "jq" :=
  ⟨rfl, by decide⟩

/-- C9 (amended): validation never alters the envelope's method, body or
query string, and alters the transformation mode only by installing the
default `"jq"` when the field was empty; an envelope with a non-empty mode
survives validation completely unchanged (and request processing itself
takes the envelope read-only). -/
theorem envelopeImmutability (pr pr' : ProxyRequest) (h : pr.validate = .ok pr') :
    pr'.method = pr.method ∧ pr'.body = pr.body ∧ pr'.jqQuery = pr.jqQuery ∧
    (pr'.transformationMode = pr.transformationMode ∨
      (pr.transformationMode = "" ∧ pr'.transformationMode = "jq")) ∧
    (pr.transformationMode ≠ "" → pr' = pr) := by
  simp only [ProxyRequest.validate] at h
  split_ifs at h
  all_goals simp only [Except.ok.injEq] at h
  all_goals subst h
  all_goals first
    | exact ⟨rfl, rfl, rfl, Or.inl rfl, fun _ => rfl⟩
    | exact ⟨rfl, rfl, rfl, Or.inr ⟨by assumption, rfl⟩, fun hc => absurd (by assumption) hc⟩

/-- Witness for C9 (amended): a concrete envelope with mode `"jq"` passes
validation unchanged. -/
theorem envelopeImmutability_witness :
    egReqOK.method = egReqOK.method ∧ egReqOK.body = egReqOK.body ∧
    egReqOK.jqQuery = egReqOK.jqQuery ∧
    (egReqOK.transformationMode = egReqOK.transformationMode ∨
      (egReqOK.transformationMode = "" ∧ egReqOK.transformationMode = "jq")) ∧
    (egReqOK.transformationMode ≠ "" → egReqOK = egReqOK) :=
  envelopeImmutability egReqOK egReqOK rfl

end JqProxy
